import Mathlib

/-!
Verification development for the carbon-aware VM scheduler (`scheduler.py`).

The scheduler translates per-region carbon percentiles into normalized
metrics, makes a per-job scheduling decision (four ordered cases plus a
12-hour timeout fallback), and drives VM start/stop through a per-VM job
ledger inside a polling loop.

Shallow embedding conventions:
* Python floats are modelled by `XFloat`: exact rationals extended with
  the IEEE special values `-inf`, `+inf` and `nan` (the inverse normal
  CDF `scipy.stats.norm.ppf` produces infinities at 0 and 1).
* `norm.ppf` itself is transcendental, so every definition that uses it
  is parameterized by an arbitrary `ppf : ℚ → XFloat`; theorems assume
  only the properties of the real quantile function they need (its values
  at the endpoints, monotonicity).
* Fallible Python code (IndexError, KeyError, TypeError on a missing
  region range, NameError on an unset variable) returns `none` /
  `Except.error ()` in the embedding.
* Timestamps are rationals counting seconds; `timedelta(hours=12)` is
  `43200`.
-/

/-- IEEE-style extended value: a rational, `-inf`, `+inf` or `nan`.
Models the Python floats flowing out of `norm.ppf`. -/
inductive XFloat where
  | ninf : XFloat
  | fin : ℚ → XFloat
  | pinf : XFloat
  | nan : XFloat
deriving DecidableEq, Repr

namespace XFloat

/-- Addition of a finite rational on the left, as in `mean + z_score * std_dev`. -/
def addQ (q : ℚ) : XFloat → XFloat
  | ninf => ninf
  | pinf => pinf
  | nan => nan
  | fin b => fin (q + b)

/-- Multiplication by a rational on the right, as in `z_score * std_dev`
and `gco2 * conversion_factor`; `±inf * 0` is `nan`, as in IEEE. -/
def mulQ : XFloat → ℚ → XFloat
  | nan, _ => nan
  | fin a, c => fin (a * c)
  | ninf, c => if 0 < c then ninf else if c < 0 then pinf else nan
  | pinf, c => if 0 < c then pinf else if c < 0 then ninf else nan

/-- IEEE `<`: comparisons with `nan` are false. -/
def xlt : XFloat → XFloat → Bool
  | nan, _ => false
  | _, nan => false
  | ninf, ninf => false
  | ninf, _ => true
  | fin _, ninf => false
  | fin a, fin b => decide (a < b)
  | fin _, pinf => true
  | pinf, _ => false

/-- IEEE `≤`: comparisons with `nan` are false. -/
def xle : XFloat → XFloat → Bool
  | nan, _ => false
  | _, nan => false
  | ninf, _ => true
  | fin _, ninf => false
  | fin a, fin b => decide (a ≤ b)
  | fin _, pinf => true
  | pinf, pinf => true
  | pinf, _ => false

/-- Whether the value is an ordinary finite float. -/
def isFinite : XFloat → Bool
  | fin _ => true
  | _ => false

/-- Whether the value is `nan`. -/
def isNan : XFloat → Bool
  | nan => true
  | _ => false

theorem xle_refl_of_not_nan (x : XFloat) (h : x.isNan = false) : x.xle x = true := by
  cases x <;> simp_all [isNan, xle]

theorem xle_trans {x y z : XFloat} (h1 : x.xle y = true) (h2 : y.xle z = true) :
    x.xle z = true := by
  cases x <;> cases y <;> cases z <;> simp_all [xle] <;> exact le_trans h1 h2

theorem xle_of_xlt_eq_false {x y : XFloat} (hx : x.isNan = false) (hy : y.isNan = false)
    (h : xlt x y = false) : xle y x = true := by
  cases x <;> cases y <;> simp_all [isNan, xlt, xle] <;> exact le_of_not_lt h

theorem not_nan_of_xle_left {x y : XFloat} (h : x.xle y = true) : x.isNan = false := by
  cases x <;> cases y <;> simp_all [xle, isNan]

theorem xle_mulQ_of_pos {x y : XFloat} {c : ℚ} (hc : 0 < c) (h : x.xle y = true) :
    (x.mulQ c).xle (y.mulQ c) = true := by
  cases x <;> cases y <;>
    simp_all [xle, mulQ, hc, not_lt_of_gt hc, mul_le_mul_of_nonneg_right, le_of_lt hc]

theorem xle_addQ {x y : XFloat} (q : ℚ) (h : x.xle y = true) :
    (addQ q x).xle (addQ q y) = true := by
  cases x <;> cases y <;> simp_all [xle, addQ]

end XFloat

/-! ## Region tables (module-level constants in `scheduler.py`) -/

/-- Azure-exclusive carbon regions. -/
def AZURE_LOCATIONS : List String := ["PJM_ROANOKE", "FR"]

/-- AWS-exclusive carbon regions. -/
def AWS_LOCATIONS : List String := ["PJM_SOUTHWEST_OH", "SE"]

/-- Carbon regions served by both providers. -/
def SHARED_LOCATIONS : List String := ["CAISO_NORTH", "UK"]

/-- Calibration range for a carbon region. -/
structure Range where
  region : String
  min : ℚ
  max : ℚ
deriving DecidableEq, Repr

/-- The static calibration table `MIN_MAX_GCO2`. -/
def MIN_MAX_GCO2 : List Range :=
  [⟨"CAISO_NORTH", 54, 263⟩,
   ⟨"UK", 147, 319⟩,
   ⟨"PJM_ROANOKE", 360, 432⟩,
   ⟨"PJM_SOUTHWEST_OH", 360, 432⟩,
   ⟨"FR", 17, 54⟩,
   ⟨"SE", 18, 28⟩]

/-- `map_azure_location`: carbon region id to Azure location name. -/
def map_azure_location (location : String) : Option String :=
  if location = "CAISO_NORTH" then some "West US"
  else if location = "UK" then some "UK South"
  else if location = "PJM_ROANOKE" then some "East US"
  else if location = "FR" then some "France Central"
  else none

/-- `map_aws_location`: carbon region id to AWS region name. -/
def map_aws_location (location : String) : Option String :=
  if location = "CAISO_NORTH" then some "us-west-1"
  else if location = "UK" then some "eu-west-2"
  else if location = "PJM_SOUTHWEST_OH" then some "us-east-2"
  else if location = "SE" then some "eu-north-1"
  else none

/-! ## Data model -/

/-- A job from the configuration, after `add_timestamp`.  The opaque
`command` and `output` payloads are addressed through `job_name` by the
remote-execution and completion oracles. -/
structure Job where
  job_name : String
  location : String
  time_sensitive : Bool
  location_switch : Bool
  percentile_threshold : ℚ
  submitted : ℚ
deriving DecidableEq, Repr

/-- One entry of the percentile snapshot built by `get_region_percentiles`. -/
structure Sample where
  region : String
  percentile : ℚ
deriving DecidableEq, Repr

/-- One entry of the output of `percentile_to_gco2`. -/
structure Gco2 where
  region : String
  gco2 : XFloat
deriving DecidableEq, Repr

/-- One entry of the output of `gco2_to_moer`. -/
structure Moer where
  region : String
  co2_moer : XFloat
deriving DecidableEq, Repr

/-! ## Carbon snapshot fetch (`get_region_percentiles`) -/

/-- The fixed per-tick fetch order `SHARED_LOCATIONS + AZURE_LOCATIONS + AWS_LOCATIONS`. -/
def ALL_LOCATIONS : List String := SHARED_LOCATIONS ++ AZURE_LOCATIONS ++ AWS_LOCATIONS

/-- Loop body of `get_region_percentiles` over a region list.  `ok r`
models `region_data.ok`, `val r` the fetched percentile.  Returns the
collected samples, the regions fetched (each exactly once, in order) and
the number of token refreshes (`TOKEN = WattTime.generate_token(...)`)
performed for failed fetches. -/
def fetch_loop (ok : String → Bool) (val : String → ℚ) :
    List String → List Sample × List String × Nat
  | [] => ([], [], 0)
  | r :: rest =>
    let (ps, fetched, refreshes) := fetch_loop ok val rest
    if ok r then (⟨r, val r⟩ :: ps, r :: fetched, refreshes)
    else (ps, r :: fetched, refreshes + 1)

/-- `get_region_percentiles`: fetch every known region once; an ok
response contributes a sample, a failed one triggers a token refresh and
is skipped.  The function keeps no state between calls: nothing records
past failures. -/
def get_region_percentiles (ok : String → Bool) (val : String → ℚ) :
    List Sample × List String × Nat :=
  fetch_loop ok val ALL_LOCATIONS

/-! ## Carbon signal translation -/

/-- `get_gco2_range_for_region`: linear scan of `MIN_MAX_GCO2`. -/
def get_gco2_range_for_region (region : String) : Option Range :=
  MIN_MAX_GCO2.find? (fun r => r.region = region)

/-- `percentile_to_gco2`: for each sample, look up the calibration range
(`none` models the Python `TypeError` when the region is unknown and the
code does `range["min"]` on `None`), then compute
`mean + norm.ppf(percentile / 100) * std_dev` with
`mean = (min + max) / 2` and `std_dev = (max - min) / 4`; `ppf` stands
for `scipy.stats.norm.ppf`.  No clamping of the percentile happens. -/
def percentile_to_gco2 (ppf : ℚ → XFloat) : List Sample → Option (List Gco2)
  | [] => some []
  | p :: rest =>
    match get_gco2_range_for_region p.region with
    | none => none
    | some range =>
      let mean : ℚ := (range.min + range.max) / 2
      let std_dev : ℚ := (range.max - range.min) / 4
      let z_score : XFloat := ppf (p.percentile / 100)
      let gco2 : XFloat := XFloat.addQ mean (z_score.mulQ std_dev)
      match percentile_to_gco2 ppf rest with
      | none => none
      | some gs => some (⟨p.region, gco2⟩ :: gs)

/-- `gco2_to_moer`: multiply each intensity by the fixed conversion
factor `2.20462`. -/
def gco2_to_moer (gco2s : List Gco2) : List Moer :=
  gco2s.map (fun g => ⟨g.region, g.gco2.mulQ (2.20462 : ℚ)⟩)

/-! ## Lowest-metric selection and threshold filters -/

/-- Loop body of `get_lowest_azure_co2_moer`: fold that replaces the
running lowest only on a strictly smaller metric from an Azure-eligible
region.  The seed (`co2_moers[0]`) is supplied unfiltered. -/
def azure_lowest_loop : Moer → List Moer → Moer
  | lowest, [] => lowest
  | lowest, m :: rest =>
    azure_lowest_loop
      (if m.co2_moer.xlt lowest.co2_moer &&
          (AZURE_LOCATIONS ++ SHARED_LOCATIONS).contains m.region then m else lowest)
      rest

/-- `get_lowest_azure_co2_moer`: `none` models the Python `IndexError`
on `co2_moers[0]` for an empty list; otherwise the fold runs over the
whole list seeded with its head. -/
def get_lowest_azure_co2_moer : List Moer → Option Moer
  | [] => none
  | m0 :: rest => some (azure_lowest_loop m0 (m0 :: rest))

/-- Loop body of `get_lowest_aws_co2_moer`. -/
def aws_lowest_loop : Moer → List Moer → Moer
  | lowest, [] => lowest
  | lowest, m :: rest =>
    aws_lowest_loop
      (if m.co2_moer.xlt lowest.co2_moer &&
          (AWS_LOCATIONS ++ SHARED_LOCATIONS).contains m.region then m else lowest)
      rest

/-- `get_lowest_aws_co2_moer`. -/
def get_lowest_aws_co2_moer : List Moer → Option Moer
  | [] => none
  | m0 :: rest => some (aws_lowest_loop m0 (m0 :: rest))

/-- `get_azure_percentile_threshold`: Azure-eligible samples with
percentile `≤ threshold`. -/
def get_azure_percentile_threshold (percentiles : List Sample) (threshold : ℚ) :
    List Sample :=
  percentiles.filter (fun p =>
    decide (p.percentile ≤ threshold) &&
    (AZURE_LOCATIONS ++ SHARED_LOCATIONS).contains p.region)

/-- `get_aws_percentile_threshold`. -/
def get_aws_percentile_threshold (percentiles : List Sample) (threshold : ℚ) :
    List Sample :=
  percentiles.filter (fun p =>
    decide (p.percentile ≤ threshold) &&
    (AWS_LOCATIONS ++ SHARED_LOCATIONS).contains p.region)

/-! ## Scheduling decisions -/

/-- Case-3 loop of `azure_schedule_decision`: return the first match
whose mapped Azure location equals the job's fixed location (Python's
`region == job["location"]`, where an unmapped `None` never equals a
string). -/
def azure_case3_scan (job_location : String) : List Sample → Option String
  | [] => none
  | m :: rest =>
    if map_azure_location m.region = some job_location then some job_location
    else azure_case3_scan job_location rest

/-- Case-3 loop of `aws_schedule_decision`. -/
def aws_case3_scan (job_location : String) : List Sample → Option String
  | [] => none
  | m :: rest =>
    if map_aws_location m.region = some job_location then some job_location
    else aws_case3_scan job_location rest

/-- `azure_schedule_decision`.  `Except.error ()` models an uncaught
Python exception (empty metric list in case 2, unknown region in the
case-4 conversion); `Except.ok none` is "cannot be scheduled at this
time"; `now` is `datetime.now()` at decision time in seconds, and the
12-hour timeout is `43200` seconds. -/
def azure_schedule_decision (ppf : ℚ → XFloat) (job : Job)
    (percentiles : List Sample) (co2_moers : List Moer) (now : ℚ) :
    Except Unit (Option String) :=
  if job.time_sensitive && !job.location_switch then
    .ok (some job.location)
  else if job.time_sensitive && job.location_switch then
    match get_lowest_azure_co2_moer co2_moers with
    | none => .error ()
    | some lowest => .ok (map_azure_location lowest.region)
  else
    let threshold := job.percentile_threshold
    let case3 : Option String :=
      if !job.time_sensitive && !job.location_switch then
        azure_case3_scan job.location (get_azure_percentile_threshold percentiles threshold)
      else none
    match case3 with
    | some r => .ok (some r)
    | none =>
      if !job.time_sensitive && job.location_switch then
        let matchList := get_azure_percentile_threshold percentiles threshold
        if matchList = [] then
          if (43200 : ℚ) ≤ now - job.submitted then .ok (some job.location) else .ok none
        else
          match percentile_to_gco2 ppf matchList with
          | none => .error ()
          | some gs =>
            match get_lowest_azure_co2_moer (gco2_to_moer gs) with
            | none => .error ()
            | some lowest => .ok (map_azure_location lowest.region)
      else
        if (43200 : ℚ) ≤ now - job.submitted then .ok (some job.location) else .ok none

/-- `aws_schedule_decision`, textually symmetric to the Azure variant. -/
def aws_schedule_decision (ppf : ℚ → XFloat) (job : Job)
    (percentiles : List Sample) (co2_moers : List Moer) (now : ℚ) :
    Except Unit (Option String) :=
  if job.time_sensitive && !job.location_switch then
    .ok (some job.location)
  else if job.time_sensitive && job.location_switch then
    match get_lowest_aws_co2_moer co2_moers with
    | none => .error ()
    | some lowest => .ok (map_aws_location lowest.region)
  else
    let threshold := job.percentile_threshold
    let case3 : Option String :=
      if !job.time_sensitive && !job.location_switch then
        aws_case3_scan job.location (get_aws_percentile_threshold percentiles threshold)
      else none
    match case3 with
    | some r => .ok (some r)
    | none =>
      if !job.time_sensitive && job.location_switch then
        let matchList := get_aws_percentile_threshold percentiles threshold
        if matchList = [] then
          if (43200 : ℚ) ≤ now - job.submitted then .ok (some job.location) else .ok none
        else
          match percentile_to_gco2 ppf matchList with
          | none => .error ()
          | some gs =>
            match get_lowest_aws_co2_moer (gco2_to_moer gs) with
            | none => .error ()
            | some lowest => .ok (map_aws_location lowest.region)
      else
        if (43200 : ℚ) ≤ now - job.submitted then .ok (some job.location) else .ok none

/-! ## VM ledger and control loop (`main`) -/

/-- Which provider's branch created a remote-execution client. -/
inductive JobType where
  | azure : JobType
  | aws : JobType
deriving DecidableEq, Repr

/-- A VM entry from the configuration (`azure_vms` / `aws_vms`). -/
structure VMSpec where
  vm_name : String
  location : String
  resource_group_name : String
deriving DecidableEq, Repr

/-- An entry of a VM's active-job list `vm_jobs[vm_name]`:
`{"job": ..., "resource_group_name": ...}` (the group is `None` for AWS
jobs). -/
structure Assigned where
  job : Job
  resource_group_name : Option String
deriving DecidableEq, Repr

/-- An entry of `vm_clients[vm_name]`; the paramiko client object and the
AWS session are opaque, the sweep consults only `job_type` and
`job_name`. -/
structure Client where
  job_type : JobType
  job_name : String
deriving DecidableEq, Repr

/-- Externally visible calls made by the loop.  `execCommand` marks an
assignment (SSH dispatch of the job's command on the VM); `sleep` is the
fixed poll interval. -/
inductive Event where
  | startAzureVM (rg vm : String)
  | startAwsVM (instanceId : String)
  | execCommand (vm job : String)
  | deallocAzureVM (rg : Option String) (vm : String)
  | stopAwsVM (instanceId : String)
  | sleep (seconds : Nat)
deriving DecidableEq, Repr

/-- The two keyed collections of `main`, both keyed by `vm_name`
(association lists standing for the Python dicts, key order fixed at
startup by `init_job_list` / `init_ssh_list`). -/
structure Ledger where
  vm_jobs : List (String × List Assigned)
  vm_clients : List (String × List Client)
deriving DecidableEq, Repr

/-- Dict read `m[k]`; `none` models a Python `KeyError`. -/
def lookupVm {α : Type} : List (String × α) → String → Option α
  | [], _ => none
  | p :: rest, k => if p.1 = k then some p.2 else lookupVm rest k

/-- In-place mutation of the value stored under `k`. -/
def updateVm {α : Type} : List (String × α) → String → (α → α) → List (String × α)
  | [], _, _ => []
  | p :: rest, k, f => (if p.1 = k then (p.1, f p.2) else p) :: updateVm rest k f

/-- `get_azure_vm_by_region`: first configured VM in the region. -/
def get_azure_vm_by_region (vms : List VMSpec) (region : String) : Option VMSpec :=
  vms.find? (fun vm => vm.location = region)

/-- `get_aws_vm_by_region` (implicit `None` when no VM matches). -/
def get_aws_vm_by_region (vms : List VMSpec) (region : String) : Option VMSpec :=
  vms.find? (fun vm => vm.location = region)

/-- Azure branch of the scheduling loop body once a region was decided:
look up the VM (`none` models the crash on a missing VM or dict key),
start it only if its active-job list is empty, append the assignment and
the SSH client, and dispatch the command.  Returns the new ledger and
the external calls made, in order. -/
def azure_assign (azure_vms : List VMSpec) (j : Job) (region : String) (led : Ledger) :
    Option (Ledger × List Event) :=
  match get_azure_vm_by_region azure_vms region with
  | none => none
  | some vm_info =>
    match lookupVm led.vm_jobs vm_info.vm_name with
    | none => none
    | some jl =>
      let startEvs : List Event :=
        if jl.length = 0 then
          [Event.startAzureVM vm_info.resource_group_name vm_info.vm_name]
        else []
      let led' : Ledger :=
        { vm_jobs := updateVm led.vm_jobs vm_info.vm_name
            (fun l => l ++ [⟨j, some vm_info.resource_group_name⟩]),
          vm_clients := updateVm led.vm_clients vm_info.vm_name
            (fun l => l ++ [⟨JobType.azure, j.job_name⟩]) }
      some (led', startEvs ++ [Event.execCommand vm_info.vm_name j.job_name])

/-- AWS branch of the scheduling loop body; additionally records the
function-local `instance_id` variable, overwritten with this VM's name
on every AWS assignment. -/
def aws_assign (aws_vms : List VMSpec) (j : Job) (region : String) (led : Ledger) :
    Option (Ledger × List Event × String) :=
  match get_aws_vm_by_region aws_vms region with
  | none => none
  | some vm_info =>
    match lookupVm led.vm_jobs vm_info.vm_name with
    | none => none
    | some jl =>
      let startEvs : List Event :=
        if jl.length = 0 then [Event.startAwsVM vm_info.vm_name] else []
      let led' : Ledger :=
        { vm_jobs := updateVm led.vm_jobs vm_info.vm_name
            (fun l => l ++ [⟨j, none⟩]),
          vm_clients := updateVm led.vm_clients vm_info.vm_name
            (fun l => l ++ [⟨JobType.aws, j.job_name⟩]) }
      some (led', startEvs ++ [Event.execCommand vm_info.vm_name j.job_name],
            vm_info.vm_name)

/-- The `for azure_job in azure_jobs` pass.  `azure_jobs.remove(azure_job)`
mutates the list being iterated, so after a scheduled job the iterator
skips the following element: that element is appended to `kept` (still
pending) without being evaluated.  Returns the jobs still pending, the
new ledger and the external calls. -/
def azure_pass (dec : Job → Except Unit (Option String)) (azure_vms : List VMSpec) :
    List Job → List Job → Ledger → Option (List Job × Ledger × List Event)
  | [], kept, led => some (kept, led, [])
  | j :: rest, kept, led =>
    match dec j with
    | .error _ => none
    | .ok none => azure_pass dec azure_vms rest (kept ++ [j]) led
    | .ok (some region) =>
      match azure_assign azure_vms j region led with
      | none => none
      | some (led', newEvs) =>
        match rest with
        | [] => some (kept, led', newEvs)
        | k :: rest' =>
          match azure_pass dec azure_vms rest' (kept ++ [k]) led' with
          | none => none
          | some (p, l, evs) => some (p, l, newEvs ++ evs)

/-- The `for aws_job in aws_jobs` pass, also threading `instance_id`. -/
def aws_pass (dec : Job → Except Unit (Option String)) (aws_vms : List VMSpec) :
    List Job → List Job → Ledger → Option String →
    Option (List Job × Ledger × List Event × Option String)
  | [], kept, led, iid => some (kept, led, [], iid)
  | j :: rest, kept, led, iid =>
    match dec j with
    | .error _ => none
    | .ok none => aws_pass dec aws_vms rest (kept ++ [j]) led iid
    | .ok (some region) =>
      match aws_assign aws_vms j region led with
      | none => none
      | some (led', newEvs, iid') =>
        match rest with
        | [] => some (kept, led', newEvs, some iid')
        | k :: rest' =>
          match aws_pass dec aws_vms rest' (kept ++ [k]) led' (some iid') with
          | none => none
          | some (p, l, evs, iid'') => some (p, l, newEvs ++ evs, iid'')

/-- Innermost sweep loop: scan `vm_clients[vm_name]` for the current
job `j`.  `done n` is the completion probe (`status == 'DONE'`) for job
name `n`.  On a completed job the code removes the job from the VM's
list, removes the client (the iterator then skips the next client), and
if the VM's list became empty issues the teardown call: for Azure,
`begin_deallocate(job["resource_group_name"], vm_name)`; for AWS,
`Instance(instance_id).stop()` where `instance_id` is the stale
scheduling-loop variable, NOT the swept VM (`none` models the
`NameError` when it was never set).  `jkept`/`jrest` are the other
entries of the VM's job list, used for the `len(jobs) == 0` check; a
second removal of `j` would raise `ValueError` (`none`). -/
def sweep_clients (done : String → Bool) (instance_id : Option String)
    (vm_name : String) (j : Assigned) (jkept jrest : List Assigned) :
    List Client → List Client → Bool →
    Option (List Client × Bool × List Event)
  | [], ckept, jremoved => some (ckept, jremoved, [])
  | c :: crest, ckept, jremoved =>
    if c.job_name = j.job.job_name then
      match c.job_type with
      | JobType.azure =>
        if done j.job.job_name then
          if jremoved then none
          else
            let evs : List Event :=
              if jkept.length + jrest.length = 0 then
                [Event.deallocAzureVM j.resource_group_name vm_name]
              else []
            match crest with
            | [] => some (ckept, true, evs)
            | c2 :: crest' =>
              match sweep_clients done instance_id vm_name j jkept jrest
                  crest' (ckept ++ [c2]) true with
              | none => none
              | some (cl, r, evs') => some (cl, r, evs ++ evs')
        else
          sweep_clients done instance_id vm_name j jkept jrest crest (ckept ++ [c]) jremoved
      | JobType.aws =>
        if done j.job.job_name then
          if jremoved then none
          else
            match instance_id with
            | none => none
            | some iid =>
              let evs : List Event :=
                if jkept.length + jrest.length = 0 then [Event.stopAwsVM iid] else []
              match crest with
              | [] => some (ckept, true, evs)
              | c2 :: crest' =>
                match sweep_clients done instance_id vm_name j jkept jrest
                    crest' (ckept ++ [c2]) true with
                | none => none
                | some (cl, r, evs') => some (cl, r, evs ++ evs')
        else
          sweep_clients done instance_id vm_name j jkept jrest crest (ckept ++ [c]) jremoved
    else
      sweep_clients done instance_id vm_name j jkept jrest crest (ckept ++ [c]) jremoved

/-- Middle sweep loop: `for job in jobs` over one VM's active-job list,
with the same removal-skip semantics as the scheduling passes.  Returns
the surviving job list, the surviving client list and the teardown
calls. -/
def sweep_jobs (done : String → Bool) (instance_id : Option String) (vm_name : String) :
    List Assigned → List Assigned → List Client →
    Option (List Assigned × List Client × List Event)
  | [], jkept, clients => some (jkept, clients, [])
  | j :: jrest, jkept, clients =>
    match sweep_clients done instance_id vm_name j jkept jrest clients [] false with
    | none => none
    | some (clients', removed, evs) =>
      if removed then
        match jrest with
        | [] => some (jkept, clients', evs)
        | j2 :: jrest' =>
          match sweep_jobs done instance_id vm_name jrest' (jkept ++ [j2]) clients' with
          | none => none
          | some (js, cl, evs') => some (js, cl, evs ++ evs')
      else
        match sweep_jobs done instance_id vm_name jrest (jkept ++ [j]) clients' with
        | none => none
        | some (js, cl, evs') => some (js, cl, evs ++ evs')

/-- Outer sweep loop: `for vm_name, jobs in vm_jobs.items()`.  Looking
up `vm_clients[vm_name]` can raise `KeyError` (`none`). -/
def sweep (done : String → Bool) (instance_id : Option String) :
    List (String × List Assigned) → List (String × List Client) →
    Option (List (String × List Assigned) × List (String × List Client) × List Event)
  | [], cl => some ([], cl, [])
  | (vm_name, jobs) :: rest, cl =>
    match lookupVm cl vm_name with
    | none => none
    | some clients =>
      match sweep_jobs done instance_id vm_name jobs [] clients with
      | none => none
      | some (jobs', clients', evs) =>
        let cl' := updateVm cl vm_name (fun _ => clients')
        match sweep done instance_id rest cl' with
        | none => none
        | some (restEntries, cl'', evs') =>
          some ((vm_name, jobs') :: restEntries, cl'', evs ++ evs')

/-- Whether the loop sleeps 60 seconds and repeats, or breaks out. -/
inductive TickResult where
  | exit : TickResult
  | sleep : TickResult
deriving DecidableEq, Repr

/-- The mutable state of `main`'s `while True` loop between ticks. -/
structure LoopState where
  azure_jobs : List Job
  aws_jobs : List Job
  ledger : Ledger
  instance_id : Option String
deriving DecidableEq, Repr

/-- One iteration of the `while True` loop: fetch the snapshot, derive
the metrics (shared by every decision in the tick), run the Azure and
AWS scheduling passes, run the completion sweep, then either sleep 60
seconds or break depending on the END-of-tick pending lists and VM
occupancy.  `none` models an uncaught exception anywhere in the tick. -/
def tick (ppf : ℚ → XFloat) (ok : String → Bool) (val : String → ℚ)
    (done : String → Bool) (azure_vms aws_vms : List VMSpec) (now : ℚ)
    (s : LoopState) : Option (LoopState × List Event × TickResult) :=
  let percentiles := (get_region_percentiles ok val).1
  match percentile_to_gco2 ppf percentiles with
  | none => none
  | some gs =>
    let co2_moers := gco2_to_moer gs
    match azure_pass (fun j => azure_schedule_decision ppf j percentiles co2_moers now)
        azure_vms s.azure_jobs [] s.ledger with
    | none => none
    | some (azure_pending, led1, evs1) =>
      match aws_pass (fun j => aws_schedule_decision ppf j percentiles co2_moers now)
          aws_vms s.aws_jobs [] led1 s.instance_id with
      | none => none
      | some (aws_pending, led2, evs2, iid) =>
        match sweep done iid led2.vm_jobs led2.vm_clients with
        | none => none
        | some (vmj, vmc, evs3) =>
          let no_jobs := vmj.all (fun p => p.2.length = 0)
          let s' : LoopState := ⟨azure_pending, aws_pending, ⟨vmj, vmc⟩, iid⟩
          if (azure_pending ++ aws_pending).length ≠ 0 || !no_jobs then
            some (s', evs1 ++ evs2 ++ evs3 ++ [Event.sleep 60], TickResult.sleep)
          else
            some (s', evs1 ++ evs2 ++ evs3, TickResult.exit)

/-- Number of Azure start calls addressed to VM `v` in an event trace. -/
def countStart (v : String) (evs : List Event) : Nat :=
  evs.countP (fun e => match e with
    | Event.startAzureVM _ w => w = v
    | _ => false)

/-- Number of command dispatches (assignments) addressed to VM `v`. -/
def countExec (v : String) (evs : List Event) : Nat :=
  evs.countP (fun e => match e with
    | Event.execCommand w _ => w = v
    | _ => false)

/-- Number of AWS start calls addressed to VM `v`. -/
def countStartAws (v : String) (evs : List Event) : Nat :=
  evs.countP (fun e => match e with
    | Event.startAwsVM w => w = v
    | _ => false)

/-! ## Helper lemmas -/

theorem XFloat.xle_of_xlt {x y : XFloat} (h : XFloat.xlt x y = true) :
    XFloat.xle x y = true := by
  cases x <;> cases y <;> simp_all [XFloat.xlt, XFloat.xle] <;> exact le_of_lt h

theorem azure_case3_scan_eq_some {loc r : String} :
    ∀ l : List Sample, azure_case3_scan loc l = some r → r = loc := by
  intro l
  induction l with
  | nil => simp [azure_case3_scan]
  | cons m rest ih =>
    simp only [azure_case3_scan]
    split
    · intro h; exact (Option.some_inj.mp h).symm
    · exact ih

theorem aws_case3_scan_eq_some {loc r : String} :
    ∀ l : List Sample, aws_case3_scan loc l = some r → r = loc := by
  intro l
  induction l with
  | nil => simp [aws_case3_scan]
  | cons m rest ih =>
    simp only [aws_case3_scan]
    split
    · intro h; exact (Option.some_inj.mp h).symm
    · exact ih

theorem percentile_to_gco2_isSome (ppf : ℚ → XFloat) :
    ∀ l : List Sample,
      (∀ s ∈ l, (get_gco2_range_for_region s.region).isSome = true) →
      ∃ gs, percentile_to_gco2 ppf l = some gs ∧ gs.length = l.length := by
  intro l
  induction l with
  | nil => intro _; exact ⟨[], rfl, rfl⟩
  | cons p rest ih =>
    intro h
    obtain ⟨range, hr⟩ := Option.isSome_iff_exists.mp (h p (List.mem_cons_self p rest))
    obtain ⟨gs, hgs, hlen⟩ := ih (fun s hs => h s (List.mem_cons_of_mem p hs))
    refine ⟨⟨p.region,
        XFloat.addQ ((range.min + range.max) / 2)
          ((ppf (p.percentile / 100)).mulQ ((range.max - range.min) / 4))⟩ :: gs, ?_, ?_⟩
    · simp only [percentile_to_gco2, hr, hgs]
    · simp [hlen]

theorem eligible_azure_range_isSome {r : String}
    (h : (AZURE_LOCATIONS ++ SHARED_LOCATIONS).contains r = true) :
    (get_gco2_range_for_region r).isSome = true := by
  have hm : r ∈ AZURE_LOCATIONS ++ SHARED_LOCATIONS := by
    simpa using h
  simp [AZURE_LOCATIONS, SHARED_LOCATIONS] at hm
  rcases hm with h | h | h | h <;> subst h <;> rfl

theorem eligible_aws_range_isSome {r : String}
    (h : (AWS_LOCATIONS ++ SHARED_LOCATIONS).contains r = true) :
    (get_gco2_range_for_region r).isSome = true := by
  have hm : r ∈ AWS_LOCATIONS ++ SHARED_LOCATIONS := by
    simpa using h
  simp [AWS_LOCATIONS, SHARED_LOCATIONS] at hm
  rcases hm with h | h | h | h <;> subst h <;> rfl

/-! ## C6: case 1 ignores the snapshot -/

/-- C6: a time-sensitive job that may not switch locations is scheduled
at its fixed location by both providers' decision functions, for every
snapshot and metric list (including empty or adversarial ones) — the
carbon data does not influence the result. -/
theorem case1_fixed_location (ppf : ℚ → XFloat) (job : Job)
    (percentiles : List Sample) (co2_moers : List Moer) (now : ℚ)
    (hts : job.time_sensitive = true) (hls : job.location_switch = false) :
    azure_schedule_decision ppf job percentiles co2_moers now =
      Except.ok (some job.location) ∧
    aws_schedule_decision ppf job percentiles co2_moers now =
      Except.ok (some job.location) := by
  constructor <;> simp [azure_schedule_decision, aws_schedule_decision, hts, hls]

/-- Witness for C6 at a concrete job and empty carbon data. -/
theorem case1_fixed_location_witness :
    azure_schedule_decision (fun _ => XFloat.fin 0)
      ⟨"jobX", "East US", true, false, 0, 0⟩ [] [] 0 = Except.ok (some "East US") ∧
    aws_schedule_decision (fun _ => XFloat.fin 0)
      ⟨"jobX", "East US", true, false, 0, 0⟩ [] [] 0 = Except.ok (some "East US") :=
  case1_fixed_location (fun _ => XFloat.fin 0)
    ⟨"jobX", "East US", true, false, 0, 0⟩ [] [] 0 rfl rfl

/-! ## C3: no clamping before the inverse CDF -/

/-- C3 (code bug): `percentile_to_gco2` applies `norm.ppf(percentile/100)`
WITHOUT clamping the percentile away from 0 and 100; since the inverse
normal CDF is `-inf` at 0 and `+inf` at 1 (the hypotheses below), a
percentile of exactly 0 or 100 for a region with valid calibration
produces a non-finite intensity, contradicting the claimed clamping to
`[ε, 100-ε]` and the claimed finiteness. -/
theorem percentile_unclamped_at_bounds (ppf : ℚ → XFloat)
    (h0 : ppf 0 = XFloat.ninf) (h1 : ppf 1 = XFloat.pinf) :
    percentile_to_gco2 ppf [⟨"CAISO_NORTH", 0⟩] =
      some [⟨"CAISO_NORTH", XFloat.ninf⟩] ∧
    percentile_to_gco2 ppf [⟨"CAISO_NORTH", 100⟩] =
      some [⟨"CAISO_NORTH", XFloat.pinf⟩] ∧
    XFloat.isFinite XFloat.ninf = false ∧ XFloat.isFinite XFloat.pinf = false := by
  have hz : (0 : ℚ) / 100 = 0 := by norm_num
  have ho : (100 : ℚ) / 100 = 1 := by norm_num
  refine ⟨?_, ?_, rfl, rfl⟩ <;>
    simp [percentile_to_gco2, get_gco2_range_for_region, MIN_MAX_GCO2, hz, ho,
      h0, h1, XFloat.mulQ, XFloat.addQ] <;> norm_num

/-- Witness for C3: a concrete stand-in for `norm.ppf` with the correct
endpoint behavior exhibits the non-finite intensity at percentile 0. -/
theorem percentile_unclamped_witness :
    percentile_to_gco2
      (fun q => if q ≤ 0 then XFloat.ninf else if 1 ≤ q then XFloat.pinf else XFloat.fin 0)
      [⟨"CAISO_NORTH", 0⟩] = some [⟨"CAISO_NORTH", XFloat.ninf⟩] ∧
    XFloat.isFinite XFloat.ninf = false :=
  ⟨(percentile_unclamped_at_bounds
      (fun q => if q ≤ 0 then XFloat.ninf else if 1 ≤ q then XFloat.pinf else XFloat.fin 0)
      (by norm_num) (by norm_num)).1,
   (percentile_unclamped_at_bounds
      (fun q => if q ≤ 0 then XFloat.ninf else if 1 ≤ q then XFloat.pinf else XFloat.fin 0)
      (by norm_num) (by norm_num)).2.2.1⟩

/-! ## C7: monotonicity of the intensity estimate -/

/-- C7: for a region with valid calibration `min < max`, the intensity
computed by `percentile_to_gco2` is monotone in the percentile, assuming
only that the inverse CDF `ppf` is monotone (true of `norm.ppf`):
`mean + ppf(p/100) * std_dev` with `std_dev = (max-min)/4 > 0`. -/
theorem estimate_monotone (ppf : ℚ → XFloat)
    (hmono : ∀ a b : ℚ, a ≤ b → (ppf a).xle (ppf b) = true)
    (R : String) (range : Range) (hr : get_gco2_range_for_region R = some range)
    (hlt : range.min < range.max) (p1 p2 : ℚ) (hp : p1 < p2)
    (g1 g2 : Gco2)
    (h1 : percentile_to_gco2 ppf [⟨R, p1⟩] = some [g1])
    (h2 : percentile_to_gco2 ppf [⟨R, p2⟩] = some [g2]) :
    g1.gco2.xle g2.gco2 = true := by
  simp only [percentile_to_gco2, hr] at h1 h2
  simp only [Option.some_inj, List.cons.injEq, and_true] at h1 h2
  subst h1; subst h2
  apply XFloat.xle_addQ
  apply XFloat.xle_mulQ_of_pos (by linarith)
  exact hmono _ _ (by linarith)

/-- Witness for C7 at region UK with the identity as a monotone
inverse-CDF stand-in, percentiles 10 and 20. -/
theorem estimate_monotone_witness :
    (XFloat.addQ ((147 + 319) / 2)
        ((XFloat.fin ((10 : ℚ) / 100)).mulQ ((319 - 147) / 4))).xle
      (XFloat.addQ ((147 + 319) / 2)
        ((XFloat.fin ((20 : ℚ) / 100)).mulQ ((319 - 147) / 4))) = true :=
  estimate_monotone (fun q => XFloat.fin q)
    (fun a b h => by simp [XFloat.xle, h]) "UK" ⟨"UK", 147, 319⟩ rfl
    (by norm_num) 10 20 (by norm_num) _ _ rfl rfl

/-! ## C9: per-tick fetch behavior -/

/-- C9: each tick fetches every known region exactly once, in the fixed
order; a failed fetch contributes no sample (the region is skipped for
this tick with no same-tick retry) and triggers exactly one token
refresh; the outcome depends only on this tick's responses — the fetch
keeps NO state about past failures, so with every fetch failing the
behavior is identical on every tick (six refreshes and an empty
snapshot, unboundedly): no cap on consecutive failures exists. -/
theorem fetch_skip_refresh_no_cap :
    (∀ (ok : String → Bool) (val : String → ℚ),
       get_region_percentiles ok val =
         ((ALL_LOCATIONS.filter ok).map (fun r => ⟨r, val r⟩),
          ALL_LOCATIONS,
          (ALL_LOCATIONS.filter (fun r => !ok r)).length)) ∧
    (∀ val : String → ℚ,
       get_region_percentiles (fun _ => false) val = ([], ALL_LOCATIONS, 6)) := by
  have key : ∀ (ok : String → Bool) (val : String → ℚ) (l : List String),
      fetch_loop ok val l =
        ((l.filter ok).map (fun r => ⟨r, val r⟩), l,
         (l.filter (fun r => !ok r)).length) := by
    intro ok val l
    induction l with
    | nil => rfl
    | cons r rest ih =>
      simp only [fetch_loop, ih, List.filter_cons]
      cases h : ok r <;> simp [h]
  constructor
  · intro ok val
    exact key ok val ALL_LOCATIONS
  · intro val
    rw [get_region_percentiles, key]
    rfl

/-! ## C10: the lowest-metric selection needs a non-empty list -/

/-- C10: `get_lowest_azure_co2_moer` / `get_lowest_aws_co2_moer` read
element 0 unconditionally, so they are `none` (Python `IndexError`)
exactly on the empty list; consequently a time-sensitive switchable
job evaluated against an empty metric list (every region's fetch failed
that tick) reaches the decision function's error branch, while any
non-empty metric list yields a selection, and the non-time-sensitive
switchable case (case 4) guards its selection behind a non-empty match
list and therefore never reaches the error branch. -/
theorem lowest_selection_requires_nonempty :
    (get_lowest_azure_co2_moer [] = none) ∧
    (get_lowest_aws_co2_moer [] = none) ∧
    (∀ (ppf : ℚ → XFloat) (job : Job) (ps : List Sample) (now : ℚ),
      job.time_sensitive = true → job.location_switch = true →
      azure_schedule_decision ppf job ps [] now = Except.error () ∧
      aws_schedule_decision ppf job ps [] now = Except.error ()) ∧
    (∀ (m : Moer) (ms : List Moer),
      (get_lowest_azure_co2_moer (m :: ms)).isSome = true ∧
      (get_lowest_aws_co2_moer (m :: ms)).isSome = true) ∧
    (∀ (ppf : ℚ → XFloat) (job : Job) (ps : List Sample) (ms : List Moer) (now : ℚ),
      job.time_sensitive = false → job.location_switch = true →
      azure_schedule_decision ppf job ps ms now ≠ Except.error ()) := by
  refine ⟨rfl, rfl, ?_, ?_, ?_⟩
  · intro ppf job ps now hts hls
    constructor <;>
      simp [azure_schedule_decision, aws_schedule_decision, hts, hls,
        get_lowest_azure_co2_moer, get_lowest_aws_co2_moer]
  · intro m ms
    constructor <;> simp [get_lowest_azure_co2_moer, get_lowest_aws_co2_moer]
  · intro ppf job ps ms now hts hls
    simp only [azure_schedule_decision, hts, hls, Bool.false_and, Bool.and_false,
      Bool.not_false, Bool.not_true, Bool.true_and, if_false, Bool.false_eq_true,
      if_neg, ite_false]
    simp only [reduceIte]
    by_cases hempty : get_azure_percentile_threshold ps job.percentile_threshold = []
    · simp only [hempty, reduceIte]
      split <;> simp
    · simp only [hempty, reduceIte]
      have hrange : ∀ s ∈ get_azure_percentile_threshold ps job.percentile_threshold,
          (get_gco2_range_for_region s.region).isSome = true := by
        intro s hs
        have := List.of_mem_filter hs
        simp only [Bool.and_eq_true] at this
        exact eligible_azure_range_isSome this.2
      obtain ⟨gs, hgs, hlen⟩ := percentile_to_gco2_isSome ppf _ hrange
      simp only [hgs]
      have hne : gco2_to_moer gs ≠ [] := by
        intro hcon
        apply hempty
        have : gs.length = 0 := by
          simpa [gco2_to_moer] using congrArg List.length hcon
        rw [this] at hlen
        exact List.length_eq_zero.mp hlen.symm
      match hgm : gco2_to_moer gs with
      | [] => exact absurd hgm hne
      | m :: ms' => simp [get_lowest_azure_co2_moer]

/-- Witness for C10: the error branch is reached on the empty metric
list for a concrete time-sensitive switchable job. -/
theorem lowest_selection_witness :
    azure_schedule_decision (fun _ => XFloat.fin 0)
      ⟨"jobY", "West US", true, true, 0, 0⟩ [] [] 0 = Except.error () ∧
    aws_schedule_decision (fun _ => XFloat.fin 0)
      ⟨"jobY", "West US", true, true, 0, 0⟩ [] [] 0 = Except.error () :=
  lowest_selection_requires_nonempty.2.2.1 (fun _ => XFloat.fin 0)
    ⟨"jobY", "West US", true, true, 0, 0⟩ [] 0 rfl rfl

/-! ## C2: case-2 lowest-metric selection -/

/-- Invariant of the `get_lowest_azure_co2_moer` fold: starting from an
Azure-eligible, non-nan running lowest, the result is an eligible element
that is a lower bound (in IEEE order) of every eligible element seen. -/
theorem azure_lowest_loop_spec :
    ∀ (rest : List Moer) (low : Moer),
      (AZURE_LOCATIONS ++ SHARED_LOCATIONS).contains low.region = true →
      low.co2_moer.isNan = false →
      (∀ m ∈ rest, m.co2_moer.isNan = false) →
      (AZURE_LOCATIONS ++ SHARED_LOCATIONS).contains
          (azure_lowest_loop low rest).region = true ∧
      (azure_lowest_loop low rest = low ∨ azure_lowest_loop low rest ∈ rest) ∧
      (azure_lowest_loop low rest).co2_moer.xle low.co2_moer = true ∧
      (∀ m ∈ rest,
        (AZURE_LOCATIONS ++ SHARED_LOCATIONS).contains m.region = true →
        (azure_lowest_loop low rest).co2_moer.xle m.co2_moer = true) := by
  intro rest
  induction rest with
  | nil =>
    intro low hel hnan _
    exact ⟨hel, Or.inl rfl, XFloat.xle_refl_of_not_nan _ hnan, by simp⟩
  | cons m rest' ih =>
    intro low hel hnan hall
    have hmnan : m.co2_moer.isNan = false := hall m (List.mem_cons_self m rest')
    have hall' : ∀ x ∈ rest', x.co2_moer.isNan = false :=
      fun x hx => hall x (List.mem_cons_of_mem m hx)
    simp only [azure_lowest_loop]
    by_cases hcond : (m.co2_moer.xlt low.co2_moer &&
        (AZURE_LOCATIONS ++ SHARED_LOCATIONS).contains m.region) = true
    · rw [if_pos hcond]
      have hc := Bool.and_elim_right hcond
      have hlt := Bool.and_elim_left hcond
      obtain ⟨h1, h2, h3, h4⟩ := ih m hc hmnan hall'
      refine ⟨h1, ?_, ?_, ?_⟩
      · rcases h2 with h | h
        · exact Or.inr (by rw [h]; exact List.mem_cons_self m rest')
        · exact Or.inr (List.mem_cons_of_mem m h)
      · exact XFloat.xle_trans h3 (XFloat.xle_of_xlt hlt)
      · intro x hx hxe
        rcases List.mem_cons.mp hx with h | h
        · exact h ▸ h3
        · exact h4 x h hxe
    · rw [if_neg hcond]
      obtain ⟨h1, h2, h3, h4⟩ := ih low hel hnan hall'
      refine ⟨h1, ?_, h3, ?_⟩
      · rcases h2 with h | h
        · exact Or.inl h
        · exact Or.inr (List.mem_cons_of_mem m h)
      · intro x hx hxe
        rcases List.mem_cons.mp hx with h | h
        · rw [h]
          have hxe' : (AZURE_LOCATIONS ++ SHARED_LOCATIONS).contains m.region = true := by
            rw [h] at hxe; exact hxe
          have hltf : m.co2_moer.xlt low.co2_moer = false := by
            by_contra hcon
            rw [Bool.not_eq_false] at hcon
            apply hcond
            rw [hcon, hxe']
            rfl
          exact XFloat.xle_trans h3 (XFloat.xle_of_xlt_eq_false hmnan hnan hltf)
        · exact h4 x h hxe

/-- Eligible Azure regions always map to an Azure location name. -/
theorem eligible_azure_maps {r : String}
    (h : (AZURE_LOCATIONS ++ SHARED_LOCATIONS).contains r = true) :
    (map_azure_location r).isSome = true := by
  have hm : r ∈ AZURE_LOCATIONS ++ SHARED_LOCATIONS := by simpa using h
  simp [AZURE_LOCATIONS, SHARED_LOCATIONS] at hm
  rcases hm with h | h | h | h <;> subst h <;> rfl

/-- C2 (amended): for a time-sensitive switchable job, PROVIDED the
snapshot's first metric entry is itself Azure-eligible (the code seeds
the fold with `co2_moers[0]` unfiltered), the decision returns the
provider-mapped region of an eligible snapshot element whose metric is a
lower bound of every eligible element — regions outside the eligible set
cannot win; the selection is a pure left fold preferring the earlier
element on ties, so repeated calls with identical input agree. -/
theorem case2_lowest_eligible (ppf : ℚ → XFloat) (job : Job)
    (ps : List Sample) (now : ℚ) (m0 : Moer) (ms' : List Moer)
    (hts : job.time_sensitive = true) (hls : job.location_switch = true)
    (h0 : (AZURE_LOCATIONS ++ SHARED_LOCATIONS).contains m0.region = true)
    (hnan : ∀ m ∈ m0 :: ms', m.co2_moer.isNan = false) :
    ∃ w : Moer,
      get_lowest_azure_co2_moer (m0 :: ms') = some w ∧
      azure_schedule_decision ppf job ps (m0 :: ms') now =
        Except.ok (map_azure_location w.region) ∧
      w ∈ m0 :: ms' ∧
      (AZURE_LOCATIONS ++ SHARED_LOCATIONS).contains w.region = true ∧
      (∀ m ∈ m0 :: ms',
        (AZURE_LOCATIONS ++ SHARED_LOCATIONS).contains m.region = true →
        w.co2_moer.xle m.co2_moer = true) ∧
      (map_azure_location w.region).isSome = true := by
  obtain ⟨h1, h2, h3, h4⟩ :=
    azure_lowest_loop_spec (m0 :: ms') m0 h0
      (hnan m0 (List.mem_cons_self m0 ms')) hnan
  refine ⟨azure_lowest_loop m0 (m0 :: ms'), rfl, ?_, ?_, h1, h4, eligible_azure_maps h1⟩
  · simp [azure_schedule_decision, hts, hls, get_lowest_azure_co2_moer]
  · rcases h2 with h | h
    · rw [h]; exact List.mem_cons_self m0 ms'
    · exact h

instance {ε α : Type} [DecidableEq ε] [DecidableEq α] : DecidableEq (Except ε α) :=
  fun a b =>
    match a, b with
    | .error e, .error f =>
      if h : e = f then isTrue (by rw [h]) else isFalse (fun hc => h (Except.error.inj hc))
    | .ok x, .ok y =>
      if h : x = y then isTrue (by rw [h]) else isFalse (fun hc => h (Except.ok.inj hc))
    | .error _, .ok _ => isFalse Except.noConfusion
    | .ok _, .error _ => isFalse Except.noConfusion

/-- The spec's case-2 determinism example: metrics A:5, B:100, C:10 with
A = CAISO_NORTH, B = UK, C = FR, all Azure-eligible. -/
def moersABC : List Moer :=
  [⟨"CAISO_NORTH", XFloat.fin 5⟩, ⟨"UK", XFloat.fin 100⟩, ⟨"FR", XFloat.fin 10⟩]

/-- A time-sensitive switchable job used in concrete runs. -/
def jobZ : Job := ⟨"jobZ", "West US", true, true, 0, 0⟩

/-- Witness for C2 using the spec's determinism example
`{A:5, B:100, C:10}`: the decision picks A (CAISO_NORTH → "West US"). -/
theorem case2_lowest_eligible_witness :
    (∃ w : Moer,
      get_lowest_azure_co2_moer moersABC = some w ∧
      azure_schedule_decision (fun _ => XFloat.fin 0) jobZ [] moersABC 0 =
        Except.ok (map_azure_location w.region) ∧
      w ∈ moersABC ∧
      (AZURE_LOCATIONS ++ SHARED_LOCATIONS).contains w.region = true ∧
      (∀ m ∈ moersABC,
        (AZURE_LOCATIONS ++ SHARED_LOCATIONS).contains m.region = true →
        w.co2_moer.xle m.co2_moer = true) ∧
      (map_azure_location w.region).isSome = true) ∧
    azure_schedule_decision (fun _ => XFloat.fin 0) jobZ [] moersABC 0 =
      Except.ok (some "West US") :=
  ⟨case2_lowest_eligible (fun _ => XFloat.fin 0) jobZ [] 0
    ⟨"CAISO_NORTH", XFloat.fin 5⟩ [⟨"UK", XFloat.fin 100⟩, ⟨"FR", XFloat.fin 10⟩]
    rfl rfl (by decide) (by decide),
   by decide⟩

/-- Counterexample for C2 as stated: with the snapshot
`[SE: 1, FR: 5]` — SE is AWS-exclusive and therefore NOT Azure-eligible,
FR is the eligible region with the lowest metric — the Azure decision
for a time-sensitive switchable job returns `None` (the unfiltered seed
`co2_moers[0]` wins and fails to map to an Azure location) instead of
the claimed `France Central`. -/
theorem case2_head_ineligible_cex :
    azure_schedule_decision (fun _ => XFloat.fin 0) ⟨"j2", "West US", true, true, 0, 0⟩
      [] [⟨"SE", XFloat.fin 1⟩, ⟨"FR", XFloat.fin 5⟩] 0 = Except.ok none ∧
    (Except.ok (some "France Central") : Except Unit (Option String)) ≠ Except.ok none ∧
    (AZURE_LOCATIONS ++ SHARED_LOCATIONS).contains "FR" = true ∧
    (AZURE_LOCATIONS ++ SHARED_LOCATIONS).contains "SE" = false := by
  refine ⟨by decide, by decide, by decide, by decide⟩

/-! ## C4: the 12-hour starvation fallback -/

/-- C4 (amended): for a non-time-sensitive job, once 12 hours have
elapsed the decision returns the job's fixed location regardless of the
snapshot and threshold — unconditionally when the job cannot switch
locations (case 3 can only ever return the fixed location itself), and
when it can switch provided no region met the threshold (a non-empty
match makes case 4 return its own pick instead); before 12 hours, with
no earlier case matching, the decision is `None`. -/
theorem timeout_fallback_amended (ppf : ℚ → XFloat) (job : Job)
    (ps : List Sample) (ms : List Moer) (now : ℚ)
    (hts : job.time_sensitive = false) :
    (job.location_switch = false → (43200 : ℚ) ≤ now - job.submitted →
      azure_schedule_decision ppf job ps ms now = Except.ok (some job.location) ∧
      aws_schedule_decision ppf job ps ms now = Except.ok (some job.location)) ∧
    (job.location_switch = true →
      get_azure_percentile_threshold ps job.percentile_threshold = [] →
      (43200 : ℚ) ≤ now - job.submitted →
      azure_schedule_decision ppf job ps ms now = Except.ok (some job.location)) ∧
    (job.location_switch = true →
      get_aws_percentile_threshold ps job.percentile_threshold = [] →
      (43200 : ℚ) ≤ now - job.submitted →
      aws_schedule_decision ppf job ps ms now = Except.ok (some job.location)) ∧
    (job.location_switch = false → now - job.submitted < 43200 →
      azure_case3_scan job.location
        (get_azure_percentile_threshold ps job.percentile_threshold) = none →
      azure_schedule_decision ppf job ps ms now = Except.ok none) ∧
    (job.location_switch = false → now - job.submitted < 43200 →
      aws_case3_scan job.location
        (get_aws_percentile_threshold ps job.percentile_threshold) = none →
      aws_schedule_decision ppf job ps ms now = Except.ok none) ∧
    (job.location_switch = true → now - job.submitted < 43200 →
      get_azure_percentile_threshold ps job.percentile_threshold = [] →
      azure_schedule_decision ppf job ps ms now = Except.ok none) ∧
    (job.location_switch = true → now - job.submitted < 43200 →
      get_aws_percentile_threshold ps job.percentile_threshold = [] →
      aws_schedule_decision ppf job ps ms now = Except.ok none) := by
  refine ⟨?_, ?_, ?_, ?_, ?_, ?_, ?_⟩
  · intro hls h12
    constructor
    · rcases hscan : azure_case3_scan job.location
          (get_azure_percentile_threshold ps job.percentile_threshold) with _ | r
      · simp [azure_schedule_decision, hts, hls, hscan, h12]
      · have := azure_case3_scan_eq_some _ hscan
        subst this
        simp [azure_schedule_decision, hts, hls, hscan]
    · rcases hscan : aws_case3_scan job.location
          (get_aws_percentile_threshold ps job.percentile_threshold) with _ | r
      · simp [aws_schedule_decision, hts, hls, hscan, h12]
      · have := aws_case3_scan_eq_some _ hscan
        subst this
        simp [aws_schedule_decision, hts, hls, hscan]
  · intro hls hmt h12
    simp [azure_schedule_decision, hts, hls, hmt, h12]
  · intro hls hmt h12
    simp [aws_schedule_decision, hts, hls, hmt, h12]
  · intro hls h12 hscan
    simp [azure_schedule_decision, hts, hls, hscan, not_le.mpr h12]
  · intro hls h12 hscan
    simp [aws_schedule_decision, hts, hls, hscan, not_le.mpr h12]
  · intro hls h12 hmt
    simp [azure_schedule_decision, hts, hls, hmt, not_le.mpr h12]
  · intro hls h12 hmt
    simp [aws_schedule_decision, hts, hls, hmt, not_le.mpr h12]

/-- Witness for C4 at the spec's starvation example: threshold 0,
snapshot percentile 50 (no match), 12 hours elapsed — both decisions
return the fixed location. -/
theorem timeout_fallback_witness :
    azure_schedule_decision (fun _ => XFloat.fin 0)
      ⟨"j3", "East US", false, false, 0, 0⟩ [⟨"FR", (50 : ℚ)⟩] [] 43200 =
      Except.ok (some "East US") ∧
    aws_schedule_decision (fun _ => XFloat.fin 0)
      ⟨"j3", "East US", false, false, 0, 0⟩ [⟨"FR", (50 : ℚ)⟩] [] 43200 =
      Except.ok (some "East US") :=
  (timeout_fallback_amended (fun _ => XFloat.fin 0)
      ⟨"j3", "East US", false, false, 0, 0⟩ [⟨"FR", (50 : ℚ)⟩] [] 43200 rfl).1
    rfl (by norm_num)

/-- Counterexample for C4 as stated: a non-time-sensitive switchable job
with fixed location "West US" and a satisfied threshold is scheduled at
case 4's pick "France Central" even though 12 hours have elapsed — the
decision after the deadline is NOT the fixed location regardless of the
snapshot and threshold. -/
theorem case4_overrides_timeout_cex :
    azure_schedule_decision (fun _ => XFloat.fin 0)
      ⟨"j4", "West US", false, true, 100, 0⟩ [⟨"FR", (5 : ℚ)⟩] [] 43200 =
      Except.ok (some "France Central") ∧
    ("France Central" : String) ≠ "West US" ∧
    (43200 : ℚ) ≤ 43200 - 0 := by
  refine ⟨?_, by decide, by norm_num⟩
  have hfind : get_gco2_range_for_region "FR" = some ⟨"FR", 17, 54⟩ := by rfl
  simp [azure_schedule_decision, get_azure_percentile_threshold,
    AZURE_LOCATIONS, SHARED_LOCATIONS, percentile_to_gco2, hfind,
    gco2_to_moer, get_lowest_azure_co2_moer, azure_lowest_loop,
    XFloat.mulQ, XFloat.addQ, XFloat.xlt, map_azure_location, List.filter,
    show ((5 : ℚ) ≤ 100) by norm_num]

/-! ## C5: at-most-one start per VM per tick -/

theorem lookupVm_updateVm {α : Type} (m : List (String × α)) (k v : String) (f : α → α) :
    lookupVm (updateVm m k f) v =
      if v = k then (lookupVm m k).map f else lookupVm m v := by
  induction m with
  | nil => simp [lookupVm, updateVm]
  | cons p rest ih =>
    simp only [updateVm]
    by_cases hpk : p.1 = k
    · by_cases hpv : p.1 = v
      · have hvk : v = k := by rw [← hpv, hpk]
        simp [lookupVm, hpk, hpv, hvk]
      · have hvk : ¬ v = k := fun h => hpv (by rw [hpk, ← h])
        have hkv : ¬ k = v := fun h => hvk h.symm
        simp [lookupVm, hpk, hpv, hvk, hkv, ih]
    · by_cases hpv : p.1 = v
      · have hvk : ¬ v = k := fun h => hpk (by rw [hpv, h])
        simp [lookupVm, hpk, hpv, hvk]
      · simp [lookupVm, hpk, hpv, ih]

theorem countStart_append (v : String) (a b : List Event) :
    countStart v (a ++ b) = countStart v a + countStart v b := by
  simp [countStart, List.countP_append]

theorem countExec_append (v : String) (a b : List Event) :
    countExec v (a ++ b) = countExec v a + countExec v b := by
  simp [countExec, List.countP_append]

theorem countStart_single_start (v rg w : String) :
    countStart v [Event.startAzureVM rg w] = if w = v then 1 else 0 := by
  by_cases h : w = v <;> simp [countStart, List.countP_cons, h]

theorem countStart_single_exec (v w n : String) :
    countStart v [Event.execCommand w n] = 0 := by
  simp [countStart, List.countP_cons]

theorem countExec_single_exec (v w n : String) :
    countExec v [Event.execCommand w n] = if w = v then 1 else 0 := by
  by_cases h : w = v <;> simp [countExec, List.countP_cons, h]

theorem countExec_single_start (v rg w : String) :
    countExec v [Event.startAzureVM rg w] = 0 := by
  simp [countExec, List.countP_cons]

theorem azure_assign_spec {vms : List VMSpec} {j : Job} {region : String}
    {led led' : Ledger} {evs : List Event}
    (h : azure_assign vms j region led = some (led', evs)) :
    ∃ vm jl, get_azure_vm_by_region vms region = some vm ∧
      lookupVm led.vm_jobs vm.vm_name = some jl ∧
      evs = (if jl.length = 0 then
               [Event.startAzureVM vm.resource_group_name vm.vm_name] else []) ++
            [Event.execCommand vm.vm_name j.job_name] ∧
      led'.vm_jobs = updateVm led.vm_jobs vm.vm_name
        (fun l => l ++ [⟨j, some vm.resource_group_name⟩]) := by
  unfold azure_assign at h
  cases hfind : get_azure_vm_by_region vms region with
  | none => simp [hfind] at h
  | some vm =>
    simp only [hfind] at h
    cases hlk : lookupVm led.vm_jobs vm.vm_name with
    | none => simp [hlk] at h
    | some jl =>
      simp only [hlk, Option.some_inj, Prod.mk.injEq] at h
      obtain ⟨hled, hevs⟩ := h
      exact ⟨vm, jl, rfl, hlk, hevs.symm, by rw [← hled]⟩

theorem azure_pass_start_spec (dec : Job → Except Unit (Option String)) (vms : List VMSpec) :
    ∀ (jobs kept : List Job) (led : Ledger) (pend : List Job) (led2 : Ledger)
      (evs : List Event),
      azure_pass dec vms jobs kept led = some (pend, led2, evs) →
      ∀ v : String,
        countStart v evs =
          if lookupVm led.vm_jobs v = some [] ∧ 0 < countExec v evs then 1 else 0 := by
  intro jobs kept led
  induction jobs, kept, led using azure_pass.induct dec vms with
  | case1 kept led =>
    intro pend led2 evs h v
    simp only [azure_pass, Option.some_inj, Prod.mk.injEq] at h
    obtain ⟨-, -, hevs⟩ := h
    subst hevs
    simp [countStart, countExec]
  | case2 j rest kept led a hdec =>
    intro pend led2 evs h v
    simp [azure_pass, hdec] at h
  | case3 j rest kept led hdec ih =>
    intro pend led2 evs h v
    simp only [azure_pass, hdec] at h
    exact ih pend led2 evs h v
  | case4 j rest kept led region hdec hassign =>
    intro pend led2 evs h v
    simp [azure_pass, hdec, hassign] at h
  | case5 j kept led region hdec led' newEvs hassign =>
    intro pend led2 evs h v
    simp only [azure_pass, hdec, hassign, Option.some_inj, Prod.mk.injEq] at h
    obtain ⟨-, -, hevs⟩ := h
    subst hevs
    obtain ⟨vm, jl, hfind, hlk, hevs2, hjobs⟩ := azure_assign_spec hassign
    subst hevs2
    by_cases hv : vm.vm_name = v
    · subst hv
      rw [hlk]
      by_cases hjl : jl = []
      · subst hjl
        simp [countStart, countExec, List.countP_cons, List.countP_append]
      · have hlen : ¬ jl.length = 0 := fun hc => hjl (List.length_eq_zero.mp hc)
        simp [countStart, countExec, List.countP_cons, List.countP_append, hlen, hjl]
    · by_cases hjl : jl.length = 0 <;>
        simp [countStart, countExec, List.countP_cons, List.countP_append, hjl, hv]
  | case6 j kept led region hdec led' newEvs hassign k rest' hrec =>
    intro pend led2 evs h v
    simp [azure_pass, hdec, hassign, hrec] at h
  | case7 j kept led region hdec led' newEvs hassign k rest' p l evs' hrec ih =>
    intro pend led2 evs h v
    simp only [azure_pass, hdec, hassign, hrec, Option.some_inj, Prod.mk.injEq] at h
    obtain ⟨-, -, hevs⟩ := h
    subst hevs
    obtain ⟨vm, jl, hfind, hlk, hevs2, hjobs⟩ := azure_assign_spec hassign
    subst hevs2
    have IH := ih p l evs' hrec v
    by_cases hv : vm.vm_name = v
    · subst hv
      have hlk' : lookupVm led'.vm_jobs vm.vm_name =
          some (jl ++ [⟨j, some vm.resource_group_name⟩]) := by
        rw [hjobs, lookupVm_updateVm]
        simp [hlk]
      rw [hlk'] at IH
      have hz : countStart vm.vm_name evs' = 0 := by
        rw [IH]
        simp
      clear IH
      rw [hlk]
      by_cases hjl : jl = []
      · subst hjl
        simp [countStart, countExec, List.countP_cons, List.countP_append] at hz ⊢
        exact hz
      · have hlen : ¬ jl.length = 0 := fun hc => hjl (List.length_eq_zero.mp hc)
        simp [countStart, countExec, List.countP_cons, List.countP_append,
          hlen, hjl] at hz ⊢
        exact hz
    · have hvv : ¬ v = vm.vm_name := fun h2 => hv h2.symm
      have hlk' : lookupVm led'.vm_jobs v = lookupVm led.vm_jobs v := by
        rw [hjobs, lookupVm_updateVm, if_neg hvv]
      rw [hlk'] at IH
      have hcs : countStart v
          (((if jl.length = 0 then [Event.startAzureVM vm.resource_group_name vm.vm_name]
             else []) ++ [Event.execCommand vm.vm_name j.job_name]) ++ evs') =
          countStart v evs' := by
        by_cases hjl : jl.length = 0 <;>
          simp [countStart, List.countP_cons, List.countP_append, hjl, hv]
      have hce : countExec v
          (((if jl.length = 0 then [Event.startAzureVM vm.resource_group_name vm.vm_name]
             else []) ++ [Event.execCommand vm.vm_name j.job_name]) ++ evs') =
          countExec v evs' := by
        by_cases hjl : jl.length = 0 <;>
          simp [countExec, List.countP_cons, List.countP_append, hjl, hv]
      rw [hcs, hce]
      exact IH

theorem aws_assign_spec {vms : List VMSpec} {j : Job} {region : String}
    {led led' : Ledger} {evs : List Event} {iid : String}
    (h : aws_assign vms j region led = some (led', evs, iid)) :
    ∃ vm jl, get_aws_vm_by_region vms region = some vm ∧
      lookupVm led.vm_jobs vm.vm_name = some jl ∧
      evs = (if jl.length = 0 then [Event.startAwsVM vm.vm_name] else []) ++
            [Event.execCommand vm.vm_name j.job_name] ∧
      led'.vm_jobs = updateVm led.vm_jobs vm.vm_name (fun l => l ++ [⟨j, none⟩]) ∧
      iid = vm.vm_name := by
  unfold aws_assign at h
  cases hfind : get_aws_vm_by_region vms region with
  | none => simp [hfind] at h
  | some vm =>
    simp only [hfind] at h
    cases hlk : lookupVm led.vm_jobs vm.vm_name with
    | none => simp [hlk] at h
    | some jl =>
      simp only [hlk, Option.some_inj, Prod.mk.injEq] at h
      obtain ⟨hled, hevs, hiid⟩ := h
      exact ⟨vm, jl, rfl, hlk, hevs.symm, by rw [← hled], hiid.symm⟩

theorem aws_pass_start_spec (dec : Job → Except Unit (Option String)) (vms : List VMSpec) :
    ∀ (jobs kept : List Job) (led : Ledger) (iid : Option String) (pend : List Job)
      (led2 : Ledger) (evs : List Event) (iid2 : Option String),
      aws_pass dec vms jobs kept led iid = some (pend, led2, evs, iid2) →
      ∀ v : String,
        countStartAws v evs =
          if lookupVm led.vm_jobs v = some [] ∧ 0 < countExec v evs then 1 else 0 := by
  intro jobs kept led iid
  induction jobs, kept, led, iid using aws_pass.induct dec vms with
  | case1 kept led iid =>
    intro pend led2 evs iid2 h v
    simp only [aws_pass, Option.some_inj, Prod.mk.injEq] at h
    obtain ⟨-, -, hevs, -⟩ := h
    subst hevs
    simp [countStartAws, countExec]
  | case2 j rest kept led iid a hdec =>
    intro pend led2 evs iid2 h v
    simp [aws_pass, hdec] at h
  | case3 j rest kept led iid hdec ih =>
    intro pend led2 evs iid2 h v
    simp only [aws_pass, hdec] at h
    exact ih pend led2 evs iid2 h v
  | case4 j rest kept led iid region hdec hassign =>
    intro pend led2 evs iid2 h v
    simp [aws_pass, hdec, hassign] at h
  | case5 j kept led iid region hdec led' newEvs iid' hassign =>
    intro pend led2 evs iid2 h v
    simp only [aws_pass, hdec, hassign, Option.some_inj, Prod.mk.injEq] at h
    obtain ⟨-, -, hevs, -⟩ := h
    subst hevs
    obtain ⟨vm, jl, hfind, hlk, hevs2, hjobs, -⟩ := aws_assign_spec hassign
    subst hevs2
    by_cases hv : vm.vm_name = v
    · subst hv
      rw [hlk]
      by_cases hjl : jl = []
      · subst hjl
        simp [countStartAws, countExec, List.countP_cons, List.countP_append]
      · have hlen : ¬ jl.length = 0 := fun hc => hjl (List.length_eq_zero.mp hc)
        simp [countStartAws, countExec, List.countP_cons, List.countP_append, hlen, hjl]
    · by_cases hjl : jl.length = 0 <;>
        simp [countStartAws, countExec, List.countP_cons, List.countP_append, hjl, hv]
  | case6 j kept led iid region hdec led' newEvs iid' hassign k rest' hrec =>
    intro pend led2 evs iid2 h v
    simp [aws_pass, hdec, hassign, hrec] at h
  | case7 j kept led iid region hdec led' newEvs iid' hassign k rest' p l evs' iid3 hrec ih =>
    intro pend led2 evs iid2 h v
    simp only [aws_pass, hdec, hassign, hrec, Option.some_inj, Prod.mk.injEq] at h
    obtain ⟨-, -, hevs, -⟩ := h
    subst hevs
    obtain ⟨vm, jl, hfind, hlk, hevs2, hjobs, -⟩ := aws_assign_spec hassign
    subst hevs2
    have IH := ih p l evs' iid3 hrec v
    by_cases hv : vm.vm_name = v
    · subst hv
      have hlk' : lookupVm led'.vm_jobs vm.vm_name = some (jl ++ [⟨j, none⟩]) := by
        rw [hjobs, lookupVm_updateVm]
        simp [hlk]
      rw [hlk'] at IH
      have hz : countStartAws vm.vm_name evs' = 0 := by
        rw [IH]
        simp
      clear IH
      rw [hlk]
      by_cases hjl : jl = []
      · subst hjl
        simp [countStartAws, countExec, List.countP_cons, List.countP_append] at hz ⊢
        exact hz
      · have hlen : ¬ jl.length = 0 := fun hc => hjl (List.length_eq_zero.mp hc)
        simp [countStartAws, countExec, List.countP_cons, List.countP_append,
          hlen, hjl] at hz ⊢
        exact hz
    · have hvv : ¬ v = vm.vm_name := fun h2 => hv h2.symm
      have hlk' : lookupVm led'.vm_jobs v = lookupVm led.vm_jobs v := by
        rw [hjobs, lookupVm_updateVm, if_neg hvv]
      rw [hlk'] at IH
      have hcs : countStartAws v
          (((if jl.length = 0 then [Event.startAwsVM vm.vm_name]
             else []) ++ [Event.execCommand vm.vm_name j.job_name]) ++ evs') =
          countStartAws v evs' := by
        by_cases hjl : jl.length = 0 <;>
          simp [countStartAws, List.countP_cons, List.countP_append, hjl, hv]
      have hce : countExec v
          (((if jl.length = 0 then [Event.startAwsVM vm.vm_name]
             else []) ++ [Event.execCommand vm.vm_name j.job_name]) ++ evs') =
          countExec v evs' := by
        by_cases hjl : jl.length = 0 <;>
          simp [countExec, List.countP_cons, List.countP_append, hjl, hv]
      rw [hcs, hce]
      exact IH

/-- C5: in a scheduling pass, the external start call for a VM is issued
exactly when the VM's active-job list was empty at the start of the pass
and at least one job is assigned (dispatched) to it during the pass —
i.e. only on the 0→1 transition of its active-job count; in particular
two jobs assigned to the same VM within one tick produce exactly one
start call.  Stated for both providers' passes. -/
theorem start_call_dedup :
    (∀ (dec : Job → Except Unit (Option String)) (vms : List VMSpec)
       (jobs kept : List Job) (led : Ledger) (pend : List Job) (led2 : Ledger)
       (evs : List Event),
       azure_pass dec vms jobs kept led = some (pend, led2, evs) →
       ∀ v : String,
         countStart v evs =
           if lookupVm led.vm_jobs v = some [] ∧ 0 < countExec v evs then 1 else 0) ∧
    (∀ (dec : Job → Except Unit (Option String)) (vms : List VMSpec)
       (jobs kept : List Job) (led : Ledger) (iid : Option String) (pend : List Job)
       (led2 : Ledger) (evs : List Event) (iid2 : Option String),
       aws_pass dec vms jobs kept led iid = some (pend, led2, evs, iid2) →
       ∀ v : String,
         countStartAws v evs =
           if lookupVm led.vm_jobs v = some [] ∧ 0 < countExec v evs then 1 else 0) :=
  ⟨fun dec vms => azure_pass_start_spec dec vms,
   fun dec vms => aws_pass_start_spec dec vms⟩

/-- Decision stub scheduling every job to "East US". -/
def decW : Job → Except Unit (Option String) := fun _ => Except.ok (some "East US")

/-- Concrete jobs for the C5 witness run. -/
def jobA : Job := ⟨"a", "East US", true, false, 0, 0⟩

/-- Second concrete job (left pending by the iteration-skip). -/
def jobB : Job := ⟨"b", "East US", true, false, 0, 0⟩

/-- Third concrete job, assigned to the same VM as `jobA`. -/
def jobC : Job := ⟨"c", "East US", true, false, 0, 0⟩

/-- One Azure VM in "East US". -/
def vmsW : List VMSpec := [⟨"vmA", "East US", "rg"⟩]

/-- Initial empty ledger for the witness run. -/
def ledW : Ledger := ⟨[("vmA", [])], [("vmA", [])]⟩

/-- Ledger after the witness pass: two jobs share vmA. -/
def ledW2 : Ledger :=
  ⟨[("vmA", [⟨jobA, some "rg"⟩, ⟨jobC, some "rg"⟩])],
   [("vmA", [⟨JobType.azure, "a"⟩, ⟨JobType.azure, "c"⟩])]⟩

/-- Events of the witness pass: one start, two dispatches. -/
def evsW : List Event :=
  [Event.startAzureVM "rg" "vmA", Event.execCommand "vmA" "a",
   Event.execCommand "vmA" "c"]

/-- Witness for C5: two jobs (`jobA`, `jobC`) assigned to vmA in one
pass produce exactly one start call. -/
theorem start_call_dedup_witness :
    azure_pass decW vmsW [jobA, jobB, jobC] [] ledW = some ([jobB], ledW2, evsW) ∧
    countStart "vmA" evsW =
      (if lookupVm ledW.vm_jobs "vmA" = some [] ∧ 0 < countExec "vmA" evsW
       then 1 else 0) ∧
    countStart "vmA" evsW = 1 ∧ countExec "vmA" evsW = 2 :=
  ⟨by decide,
   start_call_dedup.1 decW vmsW [jobA, jobB, jobC] [] ledW [jobB] ledW2 evsW
     (by decide) "vmA",
   by decide, by decide⟩

/-! ## C8: tick termination behavior -/

theorem fetch_loop_eq (ok : String → Bool) (val : String → ℚ) (l : List String) :
    fetch_loop ok val l =
      ((l.filter ok).map (fun r => ⟨r, val r⟩), l,
       (l.filter (fun r => !ok r)).length) := by
  induction l with
  | nil => rfl
  | cons r rest ih =>
    simp only [fetch_loop, ih, List.filter_cons]
    cases h : ok r <;> simp [h]

theorem snapshot_gco2_isSome (ppf : ℚ → XFloat) (ok : String → Bool)
    (val : String → ℚ) :
    ∃ gs, percentile_to_gco2 ppf (get_region_percentiles ok val).1 = some gs := by
  have hall : ∀ r ∈ ALL_LOCATIONS, (get_gco2_range_for_region r).isSome = true := by
    decide
  have hmem : ∀ s ∈ (get_region_percentiles ok val).1,
      (get_gco2_range_for_region s.region).isSome = true := by
    intro s hs
    rw [get_region_percentiles, fetch_loop_eq] at hs
    simp only [List.mem_map] at hs
    obtain ⟨r, hr, hsr⟩ := hs
    have hreg : s.region = r := by rw [← hsr]
    rw [hreg]
    exact hall r (List.mem_of_mem_filter hr)
  obtain ⟨gs, hgs, -⟩ :=
    percentile_to_gco2_isSome ppf (get_region_percentiles ok val).1 hmem
  exact ⟨gs, hgs⟩

theorem sweep_empty (done : String → Bool) (iid : Option String) :
    ∀ (entries : List (String × List Assigned)) (cl : List (String × List Client)),
      (∀ p ∈ entries, p.2 = []) →
      (∀ p ∈ entries, (lookupVm cl p.1).isSome = true) →
      ∃ entries' cl', sweep done iid entries cl = some (entries', cl', []) ∧
        ∀ p ∈ entries', p.2 = [] := by
  intro entries
  induction entries with
  | nil => intro cl _ _; exact ⟨[], cl, rfl, by simp⟩
  | cons e rest ih =>
    intro cl hemp hcl
    obtain ⟨vm_name, jobs⟩ := e
    have hj : jobs = [] := hemp _ (List.mem_cons_self _ rest)
    subst hj
    obtain ⟨clients, hclients⟩ :=
      Option.isSome_iff_exists.mp (hcl _ (List.mem_cons_self _ rest))
    have hcl2 : ∀ p ∈ rest,
        (lookupVm (updateVm cl vm_name (fun _ => clients)) p.1).isSome = true := by
      intro p hp
      rw [lookupVm_updateVm]
      by_cases hpv : p.1 = vm_name
      · simp [hpv, hclients]
      · rw [if_neg hpv]
        exact hcl p (List.mem_cons_of_mem _ hp)
    obtain ⟨entries', cl'', hsweep, hemp'⟩ :=
      ih _ (fun p hp => hemp p (List.mem_cons_of_mem _ hp)) hcl2
    refine ⟨(vm_name, []) :: entries', cl'', ?_, ?_⟩
    · simp only [sweep, hclients, sweep_jobs, hsweep]
      rfl
    · intro p hp
      rcases List.mem_cons.mp hp with h | h
      · rw [h]
      · exact hemp' p h

theorem tick_drain_exit_aux (ppf : ℚ → XFloat) (ok : String → Bool) (val : String → ℚ)
    (done : String → Bool) (avms wvms : List VMSpec) (now : ℚ) (s : LoopState)
    (haz : s.azure_jobs = []) (haws : s.aws_jobs = [])
    (hvm : ∀ p ∈ s.ledger.vm_jobs, p.2 = [])
    (hcl : ∀ p ∈ s.ledger.vm_jobs, (lookupVm s.ledger.vm_clients p.1).isSome = true) :
    ∃ s2, tick ppf ok val done avms wvms now s = some (s2, [], TickResult.exit) := by
  obtain ⟨gs, hgs⟩ := snapshot_gco2_isSome ppf ok val
  obtain ⟨entries2, cl2, hsweep, hemp2⟩ :=
    sweep_empty done s.instance_id s.ledger.vm_jobs s.ledger.vm_clients hvm hcl
  have hno : entries2.all (fun p => p.2.length = 0) = true := by
    rw [List.all_eq_true]
    intro p hp
    simp [hemp2 p hp]
  refine ⟨⟨[], [], ⟨entries2, cl2⟩, s.instance_id⟩, ?_⟩
  unfold tick
  simp only [hgs, haz, haws, azure_pass, aws_pass, hsweep, hno]
  simp

theorem tick_sleep_iff_aux (ppf : ℚ → XFloat) (ok : String → Bool) (val : String → ℚ)
    (done : String → Bool) (avms wvms : List VMSpec) (now : ℚ)
    (s s' : LoopState) (evs : List Event) (r : TickResult)
    (h : tick ppf ok val done avms wvms now s = some (s', evs, r)) :
    r = TickResult.sleep ↔
      ((s'.azure_jobs ++ s'.aws_jobs).length ≠ 0 ∨
       ¬ s'.ledger.vm_jobs.all (fun p => p.2.length = 0) = true) := by
  simp only [tick] at h
  split at h
  · simp at h
  · split at h
    · simp at h
    · split at h
      · simp at h
      · split at h
        · simp at h
        · split at h
          · simp only [Option.some_inj, Prod.mk.injEq] at h
            obtain ⟨hs, hevs, hr⟩ := h
            subst hs
            subst hr
            rename_i hcond
            simp only [Bool.or_eq_true, decide_eq_true_eq, Bool.not_eq_true'] at hcond
            constructor
            · intro _
              rcases hcond with hc | hc
              · exact Or.inl hc
              · right
                intro hcon
                rw [hc] at hcon
                exact Bool.false_ne_true hcon
            · intro _
              rfl
          · simp only [Option.some_inj, Prod.mk.injEq] at h
            obtain ⟨hs, hevs, hr⟩ := h
            subst hs
            subst hr
            rename_i hcond
            simp only [Bool.or_eq_true, decide_eq_true_eq, Bool.not_eq_true'] at hcond
            push_neg at hcond
            simp only [Bool.not_eq_false] at hcond
            constructor
            · intro hcon
              exact absurd hcon (by simp)
            · intro hp
              rcases hp with hp | hp
              · exact absurd hcond.1 hp
              · exact absurd hcond.2 hp

/-- C8 (amended): if at the start of a tick both pending lists are empty
and every VM's active-job list is empty (with the parallel `vm_clients`
map holding a key for every `vm_jobs` key, as `init_job_list` /
`init_ssh_list` guarantee), the tick performs no external call at all
and exits on that tick; in general, though, the sleep/exit choice is
made from the END-of-tick state: the loop sleeps 60 seconds exactly
when some pending job or some VM assignment remains after the tick's
passes and sweep, and exits otherwise — a tick that starts non-empty
but drains completely exits without sleeping. -/
theorem tick_termination :
    (∀ (ppf : ℚ → XFloat) (ok : String → Bool) (val : String → ℚ)
       (done : String → Bool) (avms wvms : List VMSpec) (now : ℚ) (s : LoopState),
       s.azure_jobs = [] → s.aws_jobs = [] →
       (∀ p ∈ s.ledger.vm_jobs, p.2 = []) →
       (∀ p ∈ s.ledger.vm_jobs, (lookupVm s.ledger.vm_clients p.1).isSome = true) →
       ∃ s2, tick ppf ok val done avms wvms now s = some (s2, [], TickResult.exit)) ∧
    (∀ (ppf : ℚ → XFloat) (ok : String → Bool) (val : String → ℚ)
       (done : String → Bool) (avms wvms : List VMSpec) (now : ℚ)
       (s s' : LoopState) (evs : List Event) (r : TickResult),
       tick ppf ok val done avms wvms now s = some (s', evs, r) →
       (r = TickResult.sleep ↔
         ((s'.azure_jobs ++ s'.aws_jobs).length ≠ 0 ∨
          ¬ s'.ledger.vm_jobs.all (fun p => p.2.length = 0) = true))) :=
  ⟨tick_drain_exit_aux, tick_sleep_iff_aux⟩

/-- Witness for C8: a tick from the fully drained state performs no
action and exits. -/
theorem tick_termination_witness :
    ∃ s2, tick (fun _ => XFloat.fin 0) (fun _ => false) (fun _ => 0) (fun _ => true)
      [] [] 0 ⟨[], [], ⟨[], []⟩, none⟩ = some (s2, [], TickResult.exit) :=
  tick_termination.1 (fun _ => XFloat.fin 0) (fun _ => false) (fun _ => 0)
    (fun _ => true) [] [] 0 ⟨[], [], ⟨[], []⟩, none⟩ rfl rfl (by simp) (by simp)

/-- A time-sensitive job that schedules and completes within one tick. -/
def jobT : Job := ⟨"t", "East US", true, false, 0, 0⟩

/-- Start-of-tick state with one pending Azure job. -/
def stateT : LoopState := ⟨[jobT], [], ⟨[("vmA", [])], [("vmA", [])]⟩, none⟩

/-- Counterexample for C8 as stated: a tick that STARTS with a pending
job (so the claim's "otherwise sleep 60 seconds and repeat" applies)
schedules it, sees it complete in the same tick's sweep, and exits
without sleeping. -/
theorem tick_nonempty_start_exit_cex :
    tick (fun _ => XFloat.fin 0) (fun _ => false) (fun _ => 0) (fun _ => true)
      vmsW [] 0 stateT =
      some (⟨[], [], ⟨[("vmA", [])], [("vmA", [])]⟩, none⟩,
        [Event.startAzureVM "rg" "vmA", Event.execCommand "vmA" "t",
         Event.deallocAzureVM (some "rg") "vmA"], TickResult.exit) ∧
    stateT.azure_jobs ≠ [] ∧
    Event.sleep 60 ∉ [Event.startAzureVM "rg" "vmA", Event.execCommand "vmA" "t",
      Event.deallocAzureVM (some "rg") "vmA"] := by
  refine ⟨by decide, by decide, by decide⟩

/-! ## C1: the AWS teardown call targets a stale instance id -/

/-- Job running on aws_vm_A since an earlier tick; its probe reports DONE. -/
def j1C : Job := ⟨"j1", "us-east-2", true, false, 0, 0⟩

/-- Job scheduled onto aws_vm_B during the failing tick. -/
def j2C : Job := ⟨"j2", "eu-north-1", true, false, 0, 0⟩

/-- Two AWS VMs in distinct regions. -/
def awsVmsC1 : List VMSpec :=
  [⟨"aws_vm_A", "us-east-2", ""⟩, ⟨"aws_vm_B", "eu-north-1", ""⟩]

/-- Start-of-tick state: `j1` active on aws_vm_A (so `instance_id` holds
"aws_vm_A" from the tick that scheduled it), `j2` pending. -/
def stateC1 : LoopState :=
  ⟨[], [j2C],
   ⟨[("aws_vm_A", [⟨j1C, none⟩]), ("aws_vm_B", [])],
    [("aws_vm_A", [⟨JobType.aws, "j1"⟩]), ("aws_vm_B", [])]⟩,
   some "aws_vm_A"⟩

/-- C1 (code bug): in the tick that schedules `j2` onto aws_vm_B (which
overwrites the loop-local `instance_id` with "aws_vm_B") and then sweeps
the completed `j1` off aws_vm_A, the teardown call raised when
aws_vm_A's active-job list becomes empty is `Instance(instance_id).stop()`
— it targets aws_vm_B, a DIFFERENT VM that was started earlier in the
same tick and still holds the active job `j2`; aws_vm_A, the VM whose
occupancy cycle ended, receives no stop call at all.  This contradicts
the claim (and the code's own log line, which names `vm_name`). -/
theorem aws_stop_targets_stale_instance :
    tick (fun _ => XFloat.fin 0) (fun _ => false) (fun _ => 0) (fun n => n == "j1")
      [] awsVmsC1 0 stateC1 =
      some (⟨[], [],
             ⟨[("aws_vm_A", []), ("aws_vm_B", [⟨j2C, none⟩])],
              [("aws_vm_A", []), ("aws_vm_B", [⟨JobType.aws, "j2"⟩])]⟩,
             some "aws_vm_B"⟩,
            [Event.startAwsVM "aws_vm_B", Event.execCommand "aws_vm_B" "j2",
             Event.stopAwsVM "aws_vm_B", Event.sleep 60],
            TickResult.sleep) ∧
    Event.stopAwsVM "aws_vm_A" ∉
      [Event.startAwsVM "aws_vm_B", Event.execCommand "aws_vm_B" "j2",
       Event.stopAwsVM "aws_vm_B", Event.sleep 60] ∧
    Event.stopAwsVM "aws_vm_B" ∈
      [Event.startAwsVM "aws_vm_B", Event.execCommand "aws_vm_B" "j2",
       Event.stopAwsVM "aws_vm_B", Event.sleep 60] ∧
    lookupVm stateC1.ledger.vm_jobs "aws_vm_A" = some [⟨j1C, none⟩] ∧
    (⟨[("aws_vm_A", []), ("aws_vm_B", [⟨j2C, none⟩])],
      [("aws_vm_A", []), ("aws_vm_B", [⟨JobType.aws, "j2"⟩])]⟩ : Ledger).vm_jobs.all
        (fun p => p.1 = "aws_vm_B" || p.2.length = 0) = true := by
  refine ⟨by decide, by decide, by decide, by decide, by decide⟩
